import Mathlib

/-!
Shallow embedding of the instrumentation core of the medusa greybox fuzzer
(branch map builder, branch-distance back-propagation, comparison-distance
maps, dataflow / token-flow sets, bug maps, taint analyzer, and the
ether-leaking / integer-overflow bug oracles), together with theorems that
settle the specification claims against the source.

Conventions of the embedding:
* 256-bit EVM words (`holiman/uint256`) are `Nat` with explicit `% 2^256`
  wherever the Go code can wrap; comparisons (`Lt`, `Gt`) are plain `Nat`
  comparisons on the represented values.
* Go maps are embedded either as association lists (`List (key × value)`)
  when the claims need key enumeration, or as functions `key → Option value`
  when all the Go code does with the map is per-key independent reads and
  writes (each loop body of the Go code touches exactly the currently
  iterated key, so a pointwise definition is the function the loop computes).
* Go slices are `List` with index 0 the first element (for EVM operand
  stacks: index 0 is the stack bottom, as in `Stack.Data()`).
* Addresses (`common.Address`) are `Nat` values of the 20-byte address; the
  external geth rendering `Address.Hex()` is modelled as a fixed injective
  hexadecimal rendering (the repository only uses it to build map keys).
-/

namespace Medusa

/-- Numeric value of `vm.JUMPI`. -/
def opJUMPI : Nat := 0x57

/-- Numeric value of `vm.PUSH1`. -/
def opPUSH1 : Nat := 0x60

/-- Numeric value of `vm.PUSH32`. -/
def opPUSH32 : Nat := 0x7f

/-- geth's `vm.OpCode.IsPush`: true exactly for `PUSH1 .. PUSH32`. -/
def isPushOp (b : Nat) : Bool := opPUSH1 ≤ b && b ≤ opPUSH32

/-! ## Branch map builder (`part_010`, package `branchdistance`) -/

/-- `BranchMap` from the source: `BranchIds` maps each `JUMPI` pc to its even
false-branch id (the true-branch id is the false-branch id plus one).  The Go
`map[uint64]int` is embedded as an association list in insertion order. -/
structure BranchMap where
  BranchIds : List (Nat × Nat)
deriving Repr, DecidableEq

/-- Size of a branch map: `len(bm.BranchIds) * 2` as in the source. -/
def BranchMap.Size (bm : BranchMap) : Nat := bm.BranchIds.length * 2

/-- Go map read with the zero value (`0`) returned for a missing key. -/
def lookupZero (l : List (Nat × Nat)) (k : Nat) : Nat :=
  ((l.find? (fun p => p.1 == k)).map Prod.snd).getD 0

/-- `BranchMap.GetBranchId` from the source: the stored id, plus one when
`cond` is true. -/
def BranchMap.GetBranchId (bm : BranchMap) (pc : Nat) (cond : Bool) : Nat :=
  let branchId := lookupZero bm.BranchIds pc
  if cond then branchId + 1 else branchId

/-- The scan loop of `GetBranchMapFromBytecode` driven by `instructionIterator`:
`rest` is the still unscanned suffix `code[pc:]` of the bytecode, `pc` the
program counter of its first byte and `id` the next even branch id.  A `JUMPI`
records `(pc, id)`; a `PUSH1..PUSH32` skips its operand bytes; a push whose
operand bytes run past the end of the code makes the iterator stop with the
`incomplete push instruction` error, which `GetBranchMapFromBytecode` ignores,
keeping the entries recorded so far. -/
def branchScanAux : (fuel : Nat) → (rest : List Nat) → (pc id : Nat) → List (Nat × Nat)
  | _, [], _, _ => []
  | 0, _ :: _, _, _ => []
  | fuel + 1, op :: rest, pc, id =>
    if isPushOp op then
      let a := op - opPUSH1 + 1
      if rest.length < a then []
      else branchScanAux fuel (rest.drop a) (pc + 1 + a) id
    else if op = opJUMPI then (pc, id) :: branchScanAux fuel rest (pc + 1) (id + 2)
    else branchScanAux fuel rest (pc + 1) id

/-- `GetBranchMapFromBytecode` from the source.  The scan consumes at least
one byte of the remaining code per step, so `code.length` steps of fuel are
always enough: the fuel only bounds the structural recursion and is never
exhausted before the code is. -/
def GetBranchMapFromBytecode (code : List Nat) : BranchMap :=
  ⟨branchScanAux code.length code 0 0⟩

/-! ## Words, signed comparison and rendering helpers -/

/-- Modulus of 256-bit EVM words (`holiman/uint256` arithmetic wraps at this). -/
def U256 : Nat := 2 ^ 256

/-- Wrapping 256-bit subtraction, `uint256.Int.Sub`. -/
def subWrap (x y : Nat) : Nat := (x + U256 - y % U256) % U256

/-- Two's-complement reading of a 256-bit word, used by `uint256.Int.Sgt`. -/
def toSigned (x : Nat) : Int := if x < 2 ^ 255 then (x : Int) else (x : Int) - 2 ^ 256

/-- `uint256.Int.Sgt`: signed greater-than on 256-bit words. -/
def sgtBool (x y : Nat) : Bool := toSigned y < toSigned x

/-- Addresses (`common.Address`): the numeric value of the 20 bytes. -/
abbrev Address := Nat

/-- Lowercase hexadecimal rendering of a `Nat`, modelling
`strconv.FormatUint(n, 16)`. -/
def natHex (n : Nat) : String := ⟨Nat.toDigits 16 n⟩

/-- Model of geth's `common.Address.Hex()`: `0x` plus the 40 hex digits of
the address.  geth checksums the letter case; the repository only uses the
rendering to build map keys and bug-id strings, for which any fixed
injective rendering is equivalent, so the model uses lowercase. -/
def addressHex (a : Address) : String :=
  "0x" ++ String.mk (List.replicate (40 - (Nat.toDigits 16 a).length) '0' ++ Nat.toDigits 16 a)

/-- Model of `uint256.Int.Hex()`: `0x` plus unpadded hex digits. -/
def u256Hex (n : Nat) : String := "0x" ++ natHex n

/-! ## Branch-distance tracer: back-propagation (`part_009`) -/

/-- More opcode constants used by the back-propagation and the taint
analyzer (numeric values of geth's `vm.OpCode`). -/
def opADD : Nat := 0x01

/-- Numeric value of `vm.MULMOD` (the top of the `ADD..MULMOD` range). -/
def opMULMOD : Nat := 0x09

/-- Numeric value of `vm.LT`. -/
def opLT : Nat := 0x10

/-- Numeric value of `vm.GT`. -/
def opGT : Nat := 0x11

/-- Numeric value of `vm.SLT`. -/
def opSLT : Nat := 0x12

/-- Numeric value of `vm.SGT`. -/
def opSGT : Nat := 0x13

/-- Numeric value of `vm.EQ`. -/
def opEQ : Nat := 0x14

/-- Numeric value of `vm.ISZERO`. -/
def opISZERO : Nat := 0x15

/-- Numeric value of `vm.AND`. -/
def opAND : Nat := 0x16

/-- Numeric value of `vm.OR`. -/
def opOR : Nat := 0x17

/-- Numeric value of `vm.NOT`. -/
def opNOT : Nat := 0x19

/-- Numeric value of `vm.CALLVALUE`. -/
def opCALLVALUE : Nat := 0x34

/-- Numeric value of `vm.SELFBALANCE`. -/
def opSELFBALANCE : Nat := 0x47

/-- Numeric value of `vm.DUP1`. -/
def opDUP1 : Nat := 0x80

/-- Numeric value of `vm.DUP16`. -/
def opDUP16 : Nat := 0x8f

/-- Numeric value of `vm.SWAP1`. -/
def opSWAP1 : Nat := 0x90

/-- Numeric value of `vm.SWAP16`. -/
def opSWAP16 : Nat := 0x9f

/-- Numeric value of `vm.CALL`. -/
def opCALL : Nat := 0xf1

/-- Numeric value of `vm.DELEGATECALL`. -/
def opDELEGATECALL : Nat := 0xf4

/-- Numeric value of `vm.STATICCALL`. -/
def opSTATICCALL : Nat := 0xfa

/-- One cached instruction of the branch-distance tracer: the opcode and a
snapshot of the operand stack (`Stack.Data()`: index 0 is the stack bottom,
the last element is the stack top). -/
structure Operation where
  opcode : Nat
  tmpStack : List Nat
deriving Repr, DecidableEq

/-- Go slice read `stack[i]` with an `Int` index.  The Go code would panic on
an out-of-range index; on the traces the interpreter produces, every guarded
read is in range, and the model returns 0 outside the range. -/
def stackGet (stack : List Nat) (i : Int) : Nat :=
  if i < 0 then 0 else stack.getD i.toNat 0

/-- `BranchDistanceStatus` from the source. -/
inductive BranchDistanceStatus where
  | FOUND
  | NOTFOUND
  | NOTJUMPI
  | STACKOUTOFSCOPE
  | ENDWITHCALL
deriving Repr, DecidableEq

/-- `IsFoundDistance` from the source. -/
def IsFoundDistance (x : BranchDistanceStatus) : Bool :=
  x == .FOUND || x == .ENDWITHCALL

/-- The additive constant `DD` (the spec's `K = 1`), `uint256.NewInt(1)`. -/
def DD : Nat := 1

/-- Result of `backPropagationToFindDistance`: the distance, the status, and
whether the Go function returned a non-nil `error` (`NOTJUMPI` and
`STACKOUTOFSCOPE` carry an error; `FOUND`, `ENDWITHCALL` and `NOTFOUND`
return a nil error). -/
structure BPResult where
  diff : Nat
  status : BranchDistanceStatus
  isErr : Bool
deriving Repr, DecidableEq

/-- The per-iteration state of the back-propagation loop after the opcode
case analysis: the (possibly retargeted) source index, the base value, the
distance, and the status the case set.  Entering any iteration the carried
status is `NOTFOUND` (a found status returns from the loop at once), so the
case analysis computes the iteration's status afresh from `NOTFOUND`. -/
structure BPStep where
  si : Int
  base : Nat
  diff : Nat
  bs : BranchDistanceStatus
deriving Repr, DecidableEq

/-- The stack length of a snapshot, the loop body's `stackLen`. -/
def opSL (o : Operation) : Int := (o.tmpStack.length : Int)

/-- The loop body's `x := stack[stackLen-1]` (the snapshot's stack top). -/
def opX (o : Operation) : Nat := stackGet o.tmpStack (opSL o - 1)

/-- The loop body's `y := stack[stackLen-2]`. -/
def opY (o : Operation) : Nat := stackGet o.tmpStack (opSL o - 2)

/-- The `switch` of the back-propagation loop body, in source order.  `o` is
the cached operation at the loop index, `nextOp` the one at the next index
(read by the `CALLVALUE` case), `last` the `JUMPI` operation, `si`, `base`,
`diff` the loop state.  The `CALL`/`STATICCALL`/`DELEGATECALL` cases read
the operand at the `JUMPI` snapshot's success position,
`lastOperation.tmpStack[len-2]`, which is `opY last`. -/
def bpCase (o nextOp last : Operation) (si : Int) (base diff : Nat) : BPStep :=
  if (o.opcode = opLT ∨ o.opcode = opGT ∨ o.opcode = opEQ) ∧ si = opSL o - 2 then
    ⟨si, base, if opY o < opX o then subWrap (opX o) (opY o) else subWrap (opY o) (opX o),
     .FOUND⟩
  else if (o.opcode = opSLT ∨ o.opcode = opSGT) ∧ si = opSL o - 2 then
    ⟨si, base,
     if sgtBool (opX o) (opY o) then subWrap (opX o) (opY o) else subWrap (opY o) (opX o),
     .FOUND⟩
  else if o.opcode = opAND ∧ si = opSL o - 2 then
    ⟨si, base, if opY o < opX o then opY o else opX o, .FOUND⟩
  else if o.opcode = opOR ∧ si = opSL o - 2 then
    ⟨si, base, if opY o < opX o then opX o else opY o, .FOUND⟩
  else if o.opcode = opNOT ∧ si = opSL o - 1 then
    ⟨si, if base = 0 then 1 else 0, diff, .NOTFOUND⟩
  else if (opADD ≤ o.opcode ∧ o.opcode ≤ opMULMOD) ∧ si = opSL o - 2 then
    ⟨si, base, base, .FOUND⟩
  else if o.opcode = opISZERO ∧ si = opSL o - 1 then
    ⟨si, base, base, .FOUND⟩
  else if o.opcode = opSELFBALANCE ∧ si = opSL o then
    ⟨si, base, base, .FOUND⟩
  else if (opDUP1 ≤ o.opcode ∧ o.opcode ≤ opDUP16) ∧ si = opSL o then
    ⟨opSL o - 1 - ((o.opcode - opDUP1 : Nat) : Int), base, diff, .NOTFOUND⟩
  else if opSWAP1 ≤ o.opcode ∧ o.opcode ≤ opSWAP16 then
    if si = opSL o - 1 then
      ⟨opSL o - 1 - (((o.opcode - opSWAP1 : Nat) : Int) + 1), base, diff, .NOTFOUND⟩
    else if si = opSL o - 1 - (((o.opcode - opSWAP1 : Nat) : Int) + 1) then
      ⟨opSL o - 1, base, diff, .NOTFOUND⟩
    else
      ⟨si, base, diff, .NOTFOUND⟩
  else if (opPUSH1 ≤ o.opcode ∧ o.opcode ≤ opPUSH32) ∧ si = opSL o then
    ⟨si, base, base, .FOUND⟩
  else if o.opcode = opCALL ∧ si = opSL o - 7 then
    ⟨si, base, opY last, .ENDWITHCALL⟩
  else if o.opcode = opSTATICCALL ∧ si = opSL o - 6 then
    ⟨si, base, opY last, .ENDWITHCALL⟩
  else if o.opcode = opDELEGATECALL ∧ si = opSL o - 6 then
    ⟨si, base, opY last, .ENDWITHCALL⟩
  else if o.opcode = opCALLVALUE ∧ si = opSL o then
    ⟨si, base, stackGet nextOp.tmpStack si, .FOUND⟩
  else
    ⟨si, base, diff, .NOTFOUND⟩

/-- The loop body's case analysis at loop index `i` of the cached operation
list (`t.cachedOperations[i]`, with `t.cachedOperations[i+1]` supplied for
the `CALLVALUE` case). -/
def bpStepAt (ops : List Operation) (last : Operation) (i : Nat) (si : Int)
    (base diff : Nat) : BPStep :=
  bpCase (ops.getD i ⟨0, []⟩) (ops.getD (i + 1) ⟨0, []⟩) last si base diff

/-- The back-propagation loop
`for i := len - 1; i > len - 40 && i >= 0; i--` of
`backPropagationToFindDistance`.  After the case analysis the source checks
`sourceIndex > stackLen` (returning `STACKOUTOFSCOPE` with an error), then
`IsFoundDistance` (returning the found distance), and otherwise continues
with `i - 1`.  Leaving the loop returns `NOTFOUND` with a nil error. -/
def backPropLoop (ops : List Operation) (last : Operation) :
    (i : Nat) → (si : Int) → (base diff : Nat) → BPResult
  | i, si, base, diff =>
    if (i : Int) ≤ (ops.length : Int) - 40 then ⟨diff, .NOTFOUND, false⟩
    else
      let s := bpStepAt ops last i si base diff
      if opSL (ops.getD i ⟨0, []⟩) < s.si then ⟨s.diff, .STACKOUTOFSCOPE, true⟩
      else if IsFoundDistance s.bs then ⟨s.diff, s.bs, false⟩
      else
        match i with
        | 0 => ⟨s.diff, .NOTFOUND, false⟩
        | i' + 1 => backPropLoop ops last i' s.si s.base s.diff

/-- `backPropagationToFindDistance` from the source: requires the last cached
operation to be a `JUMPI` (otherwise `NOTJUMPI` with an error), anchors the
source index at the `JUMPI` condition slot, and runs the bounded loop. -/
def backPropagationToFindDistance (cachedOperations : List Operation) : BPResult :=
  let lastOperation := cachedOperations.getD (cachedOperations.length - 1) ⟨0, []⟩
  if lastOperation.opcode ≠ opJUMPI then ⟨0, .NOTJUMPI, true⟩
  else
    let sourceIndex : Int := (lastOperation.tmpStack.length : Int) - 2
    let baseValue := stackGet lastOperation.tmpStack sourceIndex
    backPropLoop cachedOperations lastOperation (cachedOperations.length - 1)
      sourceIndex baseValue 0

/-- The `JUMPI` handling of `BranchDistanceTracer.OnOpcode`, after the
current operation (the `JUMPI` itself, with its stack snapshot) has been
appended to `cachedOperations`.  Returns
`(distanceToCondIsZero, distanceToCondIsNotZero)` as recorded at branch ids
`GetBranchId pc false` and `GetBranchId pc true` respectively, or `none`
when the Go code panics on a non-nil back-propagation error. -/
def jumpiDistances (cachedOperations : List Operation) : Option (Nat × Nat) :=
  let lastOperation := cachedOperations.getD (cachedOperations.length - 1) ⟨0, []⟩
  let cond := stackGet lastOperation.tmpStack ((lastOperation.tmpStack.length : Int) - 2)
  if cond ≠ 0 then
    if 1 < cond then
      some ((cond + DD) % U256, 0)
    else
      let r := backPropagationToFindDistance cachedOperations
      if r.isErr then none
      else some ((r.diff + DD) % U256, 0)
  else
    let r := backPropagationToFindDistance cachedOperations
    if r.isErr then none
    else some (0, (r.diff + DD) % U256)

/-- The `JUMPI` condition read by `OnOpcode` (`Stack.Back(1)` of the
snapshot appended for the `JUMPI` itself). -/
def jumpiCond (cachedOperations : List Operation) : Nat :=
  stackGet (cachedOperations.getD (cachedOperations.length - 1) ⟨0, []⟩).tmpStack
    (((cachedOperations.getD (cachedOperations.length - 1) ⟨0, []⟩).tmpStack.length : Int) - 2)

/-- The distance of the non-executed side before the additive constant `DD`
is applied: the condition value itself when the condition exceeds one, the
back-propagated distance otherwise. -/
def jumpiPreDistance (cachedOperations : List Operation) : Nat :=
  if jumpiCond cachedOperations ≠ 0 ∧ 1 < jumpiCond cachedOperations then
    jumpiCond cachedOperations
  else (backPropagationToFindDistance cachedOperations).diff

/-! ## Association-list embedding of Go maps -/

/-- Go map read: the value stored at `k`, if any. -/
def alistFind [BEq κ] (l : List (κ × α)) (k : κ) : Option α :=
  (l.find? (fun p => p.1 == k)).map Prod.snd

/-- Go map membership test (`_, exists := m[k]`). -/
def alistHas [BEq κ] (l : List (κ × α)) (k : κ) : Bool :=
  (alistFind l k).isSome

/-- Go map write `m[k] = v`: replace the value when the key exists, append
the binding otherwise. -/
def alistSet [BEq κ] (l : List (κ × α)) (k : κ) (v : α) : List (κ × α) :=
  if alistHas l k then l.map (fun p => if p.1 == k then (k, v) else p)
  else l ++ [(k, v)]

/-- Go map `delete(m, k)`. -/
def alistErase [BEq κ] (l : List (κ × α)) (k : κ) : List (κ × α) :=
  l.filter (fun p => !(p.1 == k))

/-! ## Comparison-distance maps (`cmp_distance_maps.go`)

`DistanceMapBranchData.distance` is `map[uint64]*uint256.Int`.  The two
operations the claims are about read and write each key independently (the
merge loop's body touches exactly the key it iterates), so the map is
embedded as the function `Nat → Option Nat` it computes pointwise. -/

/-- The stored distances of a `DistanceMapBranchData`. -/
abbrev DistanceData := Nat → Option Nat

/-- `DistanceMapBranchData.setDistanceAt`: store `dist` when `id` is absent;
replace the stored value only when the stored value is strictly greater
(`cm.distance[id].Gt(distance)`); otherwise leave the map unchanged.  The
boolean reports whether the map changed. -/
def setDistanceAt (cm : DistanceData) (id dist : Nat) : DistanceData × Bool :=
  match cm id with
  | none => (fun j => if j = id then some dist else cm j, true)
  | some v =>
    if dist < v then (fun j => if j = id then some dist else cm j, true)
    else (cm, false)

/-- `DistanceMapBranchData.update`: for each id of the map to merge, copy its
value when absent, and replace the stored value when it is strictly greater
than the incoming one.  Written pointwise (the Go loop handles every key of
the incoming map independently). -/
def updateDistanceData (cm other : DistanceData) : DistanceData :=
  fun id =>
    match cm id, other id with
    | none, some d => some d
    | some v, some d => if d < v then some d else some v
    | x, none => x

/-! ## Bug map (`bugdetector_maps.go`, the timestamp-carrying variant)

`BugMap.bugMap` is `map[string]string`, bug id to the elapsed-time string
recorded at first `CoverBug`.  The recorded value is opaque to the map's
operations (it is only copied), so it is embedded as a `Nat` timestamp to
let the claims compare recording times.  The map is embedded as the function
it computes pointwise. -/

/-- The contents of a `BugMap`. -/
abbrev BugMapData := String → Option Nat

/-- `BugMap.Update` of the timestamp-carrying variant: for each bug id of the
other map, copy the other map's value only when the id is absent here; an id
already present keeps the value this map already stores. -/
def bugMapUpdate (ds other : BugMapData) : BugMapData :=
  fun bug =>
    match ds bug with
    | some t => some t
    | none => other bug

/-- `BugMap.CoverBug`: first insertion records the elapsed time
(`time.Since(StartTimeForBugDetector)`, a parameter of the model) and
returns true; later calls change nothing. -/
def coverBug (ds : BugMapData) (bugId : String) (coveredTime : Nat) : BugMapData × Bool :=
  match ds bugId with
  | some _ => (ds, false)
  | none => (fun b => if b = bugId then some coveredTime else ds b, true)

/-! ## Program positions and token flows (`part_006`, `part_008`) -/

/-- `ProgramPosition` (defined identically in the `tokenflow`, `dataflow`
and `storagewrite` packages). -/
structure ProgramPosition where
  Address : Address
  Create : Bool
  Pc : Nat
deriving Repr, DecidableEq

/-- `ProgramPosition.String`: address hex, a `c` marker for init bytecode, a
colon, and the pc in hex. -/
def ProgramPosition.toStr (s : ProgramPosition) : String :=
  addressHex s.Address ++ (if s.Create then "c" else "") ++ ":" ++ natHex s.Pc

/-- `Flow`: one token transfer. -/
structure Flow where
  From : Address
  To : Address
  Amount : Nat
  Token : Address
deriving Repr, DecidableEq

/-- `Tokenflow`: a flow recorded at a program position. -/
structure Tokenflow where
  Position : ProgramPosition
  Flow : Flow
deriving Repr, DecidableEq

/-- `Tokenflow.String` from the source: it writes only the position — the
flow fields take no part in the rendered key. -/
def Tokenflow.toStr (df : Tokenflow) : String :=
  df.Position.toStr

/-- `TokenflowSet`: the success and reverted sets, keyed by
`Tokenflow.String()`. -/
structure TokenflowSet where
  successSet : List (String × Tokenflow)
  revertedSet : List (String × Tokenflow)
deriving Repr, DecidableEq

/-- `NewTokenflowSet` / `Reset`. -/
def NewTokenflowSet : TokenflowSet := ⟨[], []⟩

/-- `TokenflowSet.SetTokenFlow`: build the flow and its position, render the
key with `Tokenflow.String()`, and insert only when the key is absent.
`storageAddress` is accepted and unused, exactly as in the source. -/
def TokenflowSet.SetTokenFlow (ds : TokenflowSet) (storageAddress codeAddress : Address)
    (create : Bool) (pc amount : Nat) (fromA toA token : Address) :
    TokenflowSet × Bool :=
  let _ := storageAddress
  let flow : Flow := ⟨fromA, toA, amount % U256, token⟩
  let position : ProgramPosition := ⟨codeAddress, create, pc⟩
  let tokenflow : Tokenflow := ⟨position, flow⟩
  let tokenflowStr := tokenflow.toStr
  if alistHas ds.successSet tokenflowStr then (ds, false)
  else ({ ds with successSet := ds.successSet ++ [(tokenflowStr, tokenflow)] }, true)

/-! ## Dataflow set and tracer (`dataflow_set.go`, `dataflow_tracer.go`) -/

/-- `StorageSlot` of the dataflow package. -/
structure StorageSlot where
  Address : Address
  Slot : Nat
deriving Repr, DecidableEq

/-- `StorageSlot.String`: address hex, colon, slot hex (`uint256.Hex`). -/
def StorageSlot.toStr (s : StorageSlot) : String :=
  addressHex s.Address ++ ":" ++ u256Hex s.Slot

/-- `Dataflow`: a write-read pair on a storage slot. -/
structure Dataflow where
  Write : ProgramPosition
  Read : ProgramPosition
  Variable : StorageSlot
deriving Repr, DecidableEq

/-- `Dataflow.String`: write position, variable and read position joined
with dashes. -/
def Dataflow.toStr (df : Dataflow) : String :=
  df.Write.toStr ++ "-" ++ df.Variable.toStr ++ "-" ++ df.Read.toStr

/-- `DataflowSet`: the pair set (`set`) and the writers per slot
(`writeMaps`), both keyed by the rendered strings. -/
structure DataflowSet where
  set : List (String × Dataflow)
  writeMaps : List (String × List (String × ProgramPosition))
deriving Repr, DecidableEq

/-- `NewDataflowSet` / `Reset`. -/
def NewDataflowSet : DataflowSet := ⟨[], []⟩

/-- `DataflowSet.SetWrite`: record a write site for the slot, if not already
present. -/
def DataflowSet.SetWrite (ds : DataflowSet) (storageAddress : Address) (slot : Nat)
    (codeAddress : Address) (create : Bool) (pc : Nat) : DataflowSet × Bool :=
  let varSlot : StorageSlot := ⟨storageAddress, slot⟩
  let inner := (alistFind ds.writeMaps varSlot.toStr).getD []
  let write : ProgramPosition := ⟨codeAddress, create, pc⟩
  let writeStr := write.toStr
  if alistHas inner writeStr then (ds, false)
  else
    ({ ds with writeMaps := alistSet ds.writeMaps varSlot.toStr (inner ++ [(writeStr, write)]) },
     true)

/-- `DataflowSet.SetRead`: for every known writer of the slot, add the
write-read pair when absent.  The Go `range` order over the writer map is
unspecified; the key set of the result does not depend on it. -/
def DataflowSet.SetRead (ds : DataflowSet) (storageAddress : Address) (slot : Nat)
    (codeAddress : Address) (create : Bool) (pc : Nat) : DataflowSet × Bool :=
  let varSlot : StorageSlot := ⟨storageAddress, slot⟩
  match alistFind ds.writeMaps varSlot.toStr with
  | none => (ds, false)
  | some inner =>
    let read : ProgramPosition := ⟨codeAddress, create, pc⟩
    inner.foldl
      (fun acc w =>
        let dataflow : Dataflow := ⟨w.2, read, varSlot⟩
        let dataflowStr := dataflow.toStr
        if alistHas acc.1.set dataflowStr then acc
        else ({ acc.1 with set := acc.1.set ++ [(dataflowStr, dataflow)] }, true))
      (ds, false)

/-- `DataflowSet.RevertAll`: `Reset`, clearing both structures. -/
def DataflowSet.RevertAll (_ : DataflowSet) : DataflowSet := ⟨[], []⟩

/-- Per-frame state of the dataflow tracer. -/
structure DataflowFrameState where
  initialized : Bool
  create : Bool
  address : Address
deriving Repr, DecidableEq

/-- The dataflow tracer's state: the transaction-global `dataflowSet` (the
source comments that it is not per frame), the frame-state stack and the
call depth. -/
structure DataflowTracerState where
  dataflowSet : DataflowSet
  callFrameStates : List DataflowFrameState
  callDepth : Nat
deriving Repr, DecidableEq

/-- `DataflowTracer.OnExit` from the source: when the frame exits reverted —
at any depth — it calls `RevertAll` on the transaction-global set (directly
below the comment saying nothing is reset there); then a non-top-level exit
pops the frame state and decrements the call depth. -/
def DataflowTracer.OnExit (t : DataflowTracerState) (depth : Nat) (reverted : Bool) :
    DataflowTracerState :=
  let t :=
    if reverted then { t with dataflowSet := t.dataflowSet.RevertAll } else t
  if depth = 0 then t
  else { t with
          callFrameStates := t.callFrameStates.take t.callDepth,
          callDepth := t.callDepth - 1 }

/-! ## Taint analyzer (`taint_analysis.go`) -/

/-- A taint label: the source opcode and pc (pc 0 renders without the pc). -/
structure TaintOpcode where
  opcode : Nat
  pc : Nat
deriving Repr, DecidableEq

/-- Model of `vm.OpCode.String()` as used inside taint ids: an injective
rendering of the opcode byte (geth renders mnemonics; only injectivity of
the id matters for the maps keyed by it). -/
def opName (b : Nat) : String := "op" ++ natHex b

/-- `TaintOpcode.id`: `"<name>"` when the pc is zero, `"<pc>-<name>"`
otherwise. -/
def TaintOpcode.idStr (t : TaintOpcode) : String :=
  if t.pc = 0 then opName t.opcode else toString t.pc ++ "-" ++ opName t.opcode

/-- A tainted memory region. -/
structure TaintMemory where
  opcode : Nat
  pc : Nat
  start : Nat
  stop : Nat
deriving Repr, DecidableEq

/-- `TaintOpcodes`: taint id to label. -/
abbrev TaintOpcodes := List (String × TaintOpcode)

/-- `TaintAnalyzer`: the shadow stack (`map[int]TaintOpcodes`; the Go code
only ever uses non-negative indices), shadow memory and shadow storage. -/
structure TaintAnalyzer where
  taintStacks : List (Nat × TaintOpcodes)
  taintMemory : List (String × TaintMemory)
  taintStorage : List (Nat × TaintOpcodes)
deriving Repr, DecidableEq

/-- `NewTaintAnalyzer`. -/
def NewTaintAnalyzer : TaintAnalyzer := ⟨[], [], []⟩

/-- `TaintAnalyzer.AddTaintSource`: add the label to the top-of-stack slot
(index 0), creating the slot's set when absent. -/
def TaintAnalyzer.AddTaintSource (ta : TaintAnalyzer) (opcode pc : Nat) : TaintAnalyzer :=
  let taint : TaintOpcode := ⟨opcode, pc⟩
  let s0 := (alistFind ta.taintStacks 0).getD []
  { ta with taintStacks := alistSet ta.taintStacks 0 (alistSet s0 taint.idStr taint) }

/-- `TaintAnalyzer.AddTaintSourceByString`: add a string-keyed label (stored
with opcode 0 and pc 0) to stack index 0. -/
def TaintAnalyzer.AddTaintSourceByString (ta : TaintAnalyzer) (id : String) : TaintAnalyzer :=
  let s0 := (alistFind ta.taintStacks 0).getD []
  { ta with taintStacks := alistSet ta.taintStacks 0 (alistSet s0 id ⟨0, 0⟩) }

/-- `TaintAnalyzer.shiftDown`: a push happened; all slots move one deeper. -/
def TaintAnalyzer.shiftDown (ta : TaintAnalyzer) : TaintAnalyzer :=
  { ta with taintStacks := ta.taintStacks.map (fun p => (p.1 + 1, p.2)) }

/-- `TaintAnalyzer.shiftUp`: a pop happened; index 0 is dropped, the rest
move one up. -/
def TaintAnalyzer.shiftUp (ta : TaintAnalyzer) : TaintAnalyzer :=
  if ta.taintStacks.length = 0 then ta
  else { ta with
          taintStacks := (ta.taintStacks.filter (fun p => 0 < p.1)).map
            (fun p => (p.1 - 1, p.2)) }

/-- `TaintAnalyzer.copyTaintStack`: copy the label set at `src` to `dest`
(deleting `dest` when `src` is absent). -/
def TaintAnalyzer.copyTaintStack (ta : TaintAnalyzer) (src dest : Nat) : TaintAnalyzer :=
  match alistFind ta.taintStacks src with
  | none => { ta with taintStacks := alistErase ta.taintStacks dest }
  | some srcStack => { ta with taintStacks := alistSet ta.taintStacks dest srcStack }

/-- `TaintAnalyzer.mergeTaintStacks`: union the label set at `src` into
`dest` and delete `src`. -/
def TaintAnalyzer.mergeTaintStacks (ta : TaintAnalyzer) (dest src : Nat) : TaintAnalyzer :=
  match alistFind ta.taintStacks src with
  | none => ta
  | some srcStack =>
    let destStack := (alistFind ta.taintStacks dest).getD []
    let merged := srcStack.foldl (fun acc p => alistSet acc p.1 p.2) destStack
    { ta with taintStacks := alistErase (alistSet ta.taintStacks dest merged) src }

/-- `TaintAnalyzer.memoryToStack`: every tainted memory region overlapping
`[start, stop)` adds its label to stack index 0. -/
def TaintAnalyzer.memoryToStack (ta : TaintAnalyzer) (start stop : Nat) : TaintAnalyzer :=
  ta.taintMemory.foldl
    (fun acc p =>
      if stop ≤ p.2.start then acc
      else if p.2.stop ≤ start then acc
      else acc.AddTaintSource p.2.opcode p.2.pc)
    ta

/-- `TaintAnalyzer.stackToMemory`: the labels of the slot at `stackIndex`
each mark the memory region `[start, stop)`. -/
def TaintAnalyzer.stackToMemory (ta : TaintAnalyzer) (stackIndex : Nat) (start stop : Nat) :
    TaintAnalyzer :=
  match alistFind ta.taintStacks stackIndex with
  | none => ta
  | some ts =>
    { ta with taintMemory :=
        (ts.foldl (fun mem p => alistSet mem p.1 ⟨p.2.opcode, p.2.pc, start, stop⟩)
          ta.taintMemory) }

/-- `TaintAnalyzer.IsTaintedByString`: is the slot at `stackIndex` tainted by
the string-keyed label `id`. -/
def TaintAnalyzer.IsTaintedByString (ta : TaintAnalyzer) (id : String) (stackIndex : Nat) :
    Bool :=
  match alistFind ta.taintStacks stackIndex with
  | none => false
  | some ts => alistHas ts id

/-- The `SWAPn` arm of `PropagateTaint`: exchange the sets at indices 0 and
`n` (a missing Go entry reads as nil, assigning it creates an empty entry),
then delete either entry when empty. -/
def TaintAnalyzer.swapTaintStacks (ta : TaintAnalyzer) (n : Nat) : TaintAnalyzer :=
  let v0 := (alistFind ta.taintStacks 0).getD []
  let vn := (alistFind ta.taintStacks n).getD []
  let m1 := alistSet ta.taintStacks 0 vn
  let m2 := alistSet m1 n v0
  let m3 := if vn.length = 0 then alistErase m2 0 else m2
  let m4 := if v0.length = 0 then alistErase m3 n else m3
  { ta with taintStacks := m4 }

/-- Read of `scopeContext.Stack.Back(n)`: the n-th element from the top of
the operand stack (index 0 of the list is the stack bottom). -/
def scopeBack (stack : List Nat) (n : Nat) : Nat :=
  stack.getD (stack.length - 1 - n) 0

/-- Numeric value of `vm.PUSH0`. -/
def opPUSH0 : Nat := 0x5f

/-- Numeric value of `vm.MLOAD`. -/
def opMLOAD : Nat := 0x51

/-- Numeric value of `vm.MSTORE`. -/
def opMSTORE : Nat := 0x52

/-- Numeric value of `vm.MSTORE8`. -/
def opMSTORE8 : Nat := 0x53

/-- Numeric value of `vm.SLOAD`. -/
def opSLOAD : Nat := 0x54

/-- Numeric value of `vm.SSTORE`. -/
def opSSTORE : Nat := 0x55

/-- Numeric value of `vm.SUB`. -/
def opSUB : Nat := 0x03

/-- Numeric value of `vm.MUL`. -/
def opMUL : Nat := 0x02

/-- `TaintAnalyzer.PropagateTaint` from the source: an empty shadow stack
returns at once; otherwise the stack effect of the opcode is applied to the
shadow state.  `stk` is the operand stack of the scope (`Stack.Data()`),
read only for the `MLOAD`/`MSTORE`/`MSTORE8` offsets (`Back(0).Uint64()`,
modelled with the low 64 bits).  The opcode lists are, in source order:
the pure pushers `ADDRESS ORIGIN CALLER CALLVALUE CALLDATASIZE CODESIZE
GASPRICE COINBASE TIMESTAMP NUMBER DIFFICULTY GASLIMIT BLOCKHASH MSIZE PC
GAS RETURNDATASIZE CHAINID SELFBALANCE BASEFEE`; the no-ops `ISZERO NOT
BYTE BALANCE EXTCODESIZE EXTCODEHASH CALLDATALOAD`; the 2-pop-1-push ALU
`ADD SUB MUL DIV SDIV MOD SMOD EXP SIGNEXTEND LT GT SLT SGT EQ AND OR XOR
SHL SHR SAR KECCAK256`; `ADDMOD MULMOD`; `POP JUMP`; the copies `CODECOPY
CALLDATACOPY RETURNDATACOPY` and `EXTCODECOPY`; `DUPn`; `SWAPn`; `LOGn`;
and the call and create family with cross-frame taint deliberately
dropped. -/
def TaintAnalyzer.PropagateTaint (ta : TaintAnalyzer) (opcode : Nat) (stk : List Nat) :
    TaintAnalyzer :=
  if ta.taintStacks.length = 0 then ta
  else if isPushOp opcode || opcode == opPUSH0 then ta.shiftDown
  else if opcode ∈ [0x30, 0x32, 0x33, 0x34, 0x36, 0x38, 0x3a,
                    0x41, 0x42, 0x43, 0x44, 0x45, 0x40, 0x59,
                    0x58, 0x5a, 0x3d, 0x46, 0x47, 0x48] then ta.shiftDown
  else if opcode = opMLOAD then
    let offset := scopeBack stk 0 % 2 ^ 64
    ta.memoryToStack offset (offset + 32)
  else if opcode = opSLOAD then ta
  else if opcode ∈ [opISZERO, opNOT, 0x1a, 0x31, 0x3b, 0x3f, 0x35] then ta
  else if opcode ∈ [0x01, 0x03, 0x02, 0x04, 0x05, 0x06, 0x07, 0x0a, 0x0b,
                    0x10, 0x11, 0x12, 0x13, 0x14, 0x16, 0x17, 0x18, 0x1b,
                    0x1c, 0x1d, 0x20] then
    (ta.mergeTaintStacks 1 0).shiftUp
  else if opcode = 0x08 ∨ opcode = 0x09 then
    (((ta.mergeTaintStacks 2 0).mergeTaintStacks 2 1).shiftUp).shiftUp
  else if opcode = 0x50 ∨ opcode = 0x56 then ta.shiftUp
  else if opcode = opMSTORE then
    let offset := scopeBack stk 0 % 2 ^ 64
    ((ta.stackToMemory 1 offset (offset + 32)).shiftUp).shiftUp
  else if opcode = opMSTORE8 then
    let offset := scopeBack stk 0 % 2 ^ 64
    ((ta.stackToMemory 1 offset (offset + 1)).shiftUp).shiftUp
  else if opcode = opSSTORE then (ta.shiftUp).shiftUp
  else if opcode = opJUMPI ∨ opcode = 0xf3 ∨ opcode = 0xfd then (ta.shiftUp).shiftUp
  else if opcode = 0x39 ∨ opcode = 0x37 ∨ opcode = 0x3e then
    ((ta.shiftUp).shiftUp).shiftUp
  else if opcode = 0x3c then (((ta.shiftUp).shiftUp).shiftUp).shiftUp
  else if opDUP1 ≤ opcode ∧ opcode ≤ opDUP16 then
    let n := opcode - opDUP1 + 1
    (ta.shiftDown).copyTaintStack n 0
  else if opSWAP1 ≤ opcode ∧ opcode ≤ opSWAP16 then
    ta.swapTaintStacks (opcode - opSWAP1 + 1)
  else if 0xa0 ≤ opcode ∧ opcode ≤ 0xa4 then
    (List.range (opcode - 0xa0 + 2)).foldl (fun a _ => a.shiftUp) ta
  else if opcode = 0xf0 then (((ta.shiftUp).shiftUp).shiftUp).shiftDown
  else if opcode = 0xf5 then (((ta.shiftUp).shiftUp).shiftUp).shiftUp
  else if opcode = 0xf1 ∨ opcode = 0xf2 then
    ((List.range 7).foldl (fun a _ => a.shiftUp) ta).shiftDown
  else if opcode = opDELEGATECALL ∨ opcode = opSTATICCALL then
    ((List.range 6).foldl (fun a _ => a.shiftUp) ta).shiftDown
  else ta

/-! ## Integer-overflow oracle (`part_003`) -/

/-- The string label tagged by the overflow source, `OVERFLOW_ID`. -/
def OVERFLOW_ID : String := "OVERFLOW"

/-- `isOverflowTaintSource` from the source, on the pre-execution operands
`a = Stack.Back(0)` and `b = Stack.Back(1)`: for `ADD`, the wrapped sum is
below an operand; for `SUB`, `a < b`; for `MUL`, a zero operand returns
false, otherwise the wrapped product is below an operand. -/
def isOverflowTaintSource (opcode : Nat) (a b : Nat) : Bool :=
  if opcode = opADD then
    let sum := (a + b) % U256
    decide (sum < a) || decide (sum < b)
  else if opcode = opSUB then
    decide (a < b)
  else if opcode = opMUL then
    if a = 0 || b = 0 then false
    else
      let product := a * b % U256
      decide (product < a) || decide (product < b)
  else false

/-- The overflow source condition as the claim words it (for comparison with
the source): for `MUL` it asks that *either* operand be non-zero. -/
def claimOverflowSourceCond (opcode : Nat) (a b : Nat) : Bool :=
  if opcode = opADD then
    decide ((a + b) % U256 < a) || decide ((a + b) % U256 < b)
  else if opcode = opSUB then
    decide (a < b)
  else if opcode = opMUL then
    (decide (a ≠ 0) || decide (b ≠ 0))
      && (decide (a * b % U256 < a) || decide (a * b % U256 < b))
  else false

/-- The overflow source condition with the claim's `MUL` guard amended to
require *both* operands non-zero. -/
def amendedOverflowSourceCond (opcode : Nat) (a b : Nat) : Bool :=
  if opcode = opADD then
    decide ((a + b) % U256 < a) || decide ((a + b) % U256 < b)
  else if opcode = opSUB then
    decide (a < b)
  else if opcode = opMUL then
    (decide (a ≠ 0) && decide (b ≠ 0))
      && (decide (a * b % U256 < a) || decide (a * b % U256 < b))
  else false

/-- `isOverflowTaintSunk` from the source: comparison opcodes look at slots
0 and 1, `ISZERO` at slot 0, `CALL` at slots 0 and 2, `SSTORE` at slot 1. -/
def isOverflowTaintSunk (opcode : Nat) (ta : TaintAnalyzer) : Bool :=
  if opcode = opLT ∨ opcode = opGT ∨ opcode = opSLT ∨ opcode = opSGT ∨ opcode = opEQ then
    ta.IsTaintedByString OVERFLOW_ID 0 || ta.IsTaintedByString OVERFLOW_ID 1
  else if opcode = opISZERO then
    ta.IsTaintedByString OVERFLOW_ID 0
  else if opcode = opCALL then
    ta.IsTaintedByString OVERFLOW_ID 0 || ta.IsTaintedByString OVERFLOW_ID 2
  else if opcode = opSSTORE then
    ta.IsTaintedByString OVERFLOW_ID 1
  else false

/-- `detect_overflow` from the source: nothing happens inside the helper
contract; a source condition tags the `OVERFLOW` string label; otherwise a
sunk taint proposes the bug id `OVERFLOW-<code>-<pc>-<op>` in the frame's
`overflowPoints`. -/
def detect_overflow (helperContract toAddr codeAddress : Address) (pc opcode a b : Nat)
    (ta : TaintAnalyzer) (overflowPoints : List String) :
    TaintAnalyzer × List String :=
  if helperContract = toAddr then (ta, overflowPoints)
  else if isOverflowTaintSource opcode a b then
    (ta.AddTaintSourceByString OVERFLOW_ID, overflowPoints)
  else if isOverflowTaintSunk opcode ta then
    let id := "OVERFLOW-" ++ addressHex codeAddress ++ "-" ++ toString pc ++ "-" ++ opName opcode
    (ta, if overflowPoints.contains id then overflowPoints else overflowPoints ++ [id])
  else (ta, overflowPoints)

/-! ## Ether-leaking oracle (`taint_analysis.go`, `detect_etherleaking`) -/

/-- The loop of `detect_etherleaking` over the configured adversarial
addresses: meeting the frame's `from` address returns at once (no
proposal, modelled as `none`); otherwise every adversarial balance is
accumulated and the sum returned. -/
def etherleakingLoop (advs : List Address) (fromAddr : Address) (bal : Address → Nat)
    (acc : Nat) : Option Nat :=
  match advs with
  | [] => some acc
  | a :: rest =>
    if fromAddr = a then none
    else etherleakingLoop rest fromAddr bal (acc + bal a)

/-- `detect_etherleaking` from the source: when the loop completes and the
summed adversarial balance exceeds the original snapshot, propose
`ETHERLEAKING-<from>` into the frame's `etherleakingPoints`. -/
def detect_etherleaking (advs : List Address) (fromAddr : Address) (bal : Address → Nat)
    (originalEther : Nat) (etherleakingPoints : List String) : List String :=
  match etherleakingLoop advs fromAddr bal 0 with
  | none => etherleakingPoints
  | some lastEther =>
    if originalEther < lastEther then
      let id := "ETHERLEAKING-" ++ addressHex fromAddr
      if etherleakingPoints.contains id then etherleakingPoints
      else etherleakingPoints ++ [id]
    else etherleakingPoints

/-- The ids recorded by the scan are `id, id + 2, id + 4, …` in scan order. -/
lemma branchScanAux_snd_range' :
    ∀ (fuel : Nat) (rest : List Nat), rest.length ≤ fuel → ∀ (pc id : Nat),
      (branchScanAux fuel rest pc id).map Prod.snd
        = List.range' id (branchScanAux fuel rest pc id).length 2 := by
  intro fuel
  induction fuel with
  | zero =>
    intro rest h pc id
    match rest with
    | [] => simp [branchScanAux]
  | succ n ih =>
    intro rest h pc id
    match rest with
    | [] => simp [branchScanAux]
    | op :: rest' =>
      have h2 : rest'.length ≤ n := by
        simp only [List.length_cons] at h; omega
      simp only [branchScanAux]
      by_cases hpush : isPushOp op = true
      · rw [if_pos hpush]
        by_cases hlen : rest'.length < op - opPUSH1 + 1
        · rw [if_pos hlen]; simp
        · rw [if_neg hlen]
          apply ih
          simp only [List.length_drop]; omega
      · rw [if_neg hpush]
        by_cases hj : op = opJUMPI
        · rw [if_pos hj]
          simp only [List.map_cons, List.length_cons]
          rw [ih rest' h2 (pc + 1) (id + 2), List.range'_succ]
        · rw [if_neg hj]
          exact ih rest' h2 (pc + 1) id

/-- Every pc recorded by the scan is at least the starting pc, and the
recorded pcs are strictly increasing in scan order. -/
lemma branchScanAux_fst_mono :
    ∀ (fuel : Nat) (rest : List Nat), rest.length ≤ fuel → ∀ (pc id : Nat),
      (∀ e ∈ branchScanAux fuel rest pc id, pc ≤ e.1)
      ∧ (branchScanAux fuel rest pc id).Pairwise (fun a b => a.1 < b.1) := by
  intro fuel
  induction fuel with
  | zero =>
    intro rest h pc id
    match rest with
    | [] => simp [branchScanAux]
  | succ n ih =>
    intro rest h pc id
    match rest with
    | [] => simp [branchScanAux]
    | op :: rest' =>
      have h2 : rest'.length ≤ n := by
        simp only [List.length_cons] at h; omega
      simp only [branchScanAux]
      by_cases hpush : isPushOp op = true
      · rw [if_pos hpush]
        by_cases hlen : rest'.length < op - opPUSH1 + 1
        · rw [if_pos hlen]; simp
        · rw [if_neg hlen]
          have h1 : (rest'.drop (op - opPUSH1 + 1)).length ≤ n := by
            simp only [List.length_drop]; omega
          rcases ih _ h1 (pc + 1 + (op - opPUSH1 + 1)) id with ⟨hle, hpw⟩
          exact ⟨fun e he => le_trans (by omega) (hle e he), hpw⟩
      · rw [if_neg hpush]
        by_cases hj : op = opJUMPI
        · rw [if_pos hj]
          rcases ih rest' h2 (pc + 1) (id + 2) with ⟨hle, hpw⟩
          constructor
          · intro e he
            rcases List.mem_cons.mp he with rfl | he'
            · exact le_refl _
            · exact le_trans (Nat.le_succ pc) (hle e he')
          · exact List.pairwise_cons.mpr
              ⟨fun e he => lt_of_lt_of_le (Nat.lt_succ_self pc) (hle e he), hpw⟩
        · rw [if_neg hj]
          rcases ih rest' h2 (pc + 1) id with ⟨hle, hpw⟩
          exact ⟨fun e he => le_trans (Nat.le_succ pc) (hle e he), hpw⟩

/-- Claim C9: the branch map builder linearly scans bytecode skipping
`PUSH1..PUSH32` operand bytes; each `JUMPI` pc gets a distinct even id in scan
order `0, 2, 4, …` (the ids form `range' 0 n 2` and the pcs are strictly
increasing, hence distinct); `Size` returns twice the number of JUMPIs found;
`GetBranchId pc taken` is the base id plus one when taken and the base id
otherwise; zero-length bytecode yields the empty map and an incomplete
trailing `PUSH` ends the scan, keeping the JUMPIs seen so far, without any
failure (the builder is a total function). -/
theorem C9_branch_map_build (code : List Nat) :
    ((GetBranchMapFromBytecode code).BranchIds.map Prod.snd
        = List.range' 0 (GetBranchMapFromBytecode code).BranchIds.length 2)
    ∧ (GetBranchMapFromBytecode code).BranchIds.Pairwise (fun a b => a.1 < b.1)
    ∧ (GetBranchMapFromBytecode code).Size
        = 2 * (GetBranchMapFromBytecode code).BranchIds.length
    ∧ (∀ pc, (GetBranchMapFromBytecode code).GetBranchId pc false
               = lookupZero (GetBranchMapFromBytecode code).BranchIds pc
           ∧ (GetBranchMapFromBytecode code).GetBranchId pc true
               = lookupZero (GetBranchMapFromBytecode code).BranchIds pc + 1)
    ∧ GetBranchMapFromBytecode [] = ⟨[]⟩
    ∧ (∀ fuel op rest pc id, isPushOp op = true → rest.length < op - opPUSH1 + 1 →
          branchScanAux (fuel + 1) (op :: rest) pc id = []) := by
  refine ⟨?_, ?_, ?_, ?_, ?_, ?_⟩
  · exact branchScanAux_snd_range' code.length code (le_refl _) 0 0
  · exact (branchScanAux_fst_mono code.length code (le_refl _) 0 0).2
  · simp [BranchMap.Size, Nat.mul_comm]
  · intro pc
    simp [BranchMap.GetBranchId]
  · simp [GetBranchMapFromBytecode, branchScanAux]
  · intro fuel op rest pc id hpush hlen
    simp [branchScanAux, hpush, hlen]

/-- Witness for claim C9: the theorem applied to a concrete bytecode, and the
incomplete-push conjunct discharged at a concrete incomplete `PUSH2` tail.
The sample bytecode `PUSH1 01 PUSH1 02 JUMPI JUMPI PUSH2 00` has JUMPIs at
pcs 4 and 5 and ends with an incomplete push. -/
theorem C9_branch_map_build_witness :
    branchScanAux 2 [0x61, 0x00] 3 7 = []
    ∧ (GetBranchMapFromBytecode [0x60, 0x01, 0x60, 0x02, 0x57, 0x57, 0x61, 0x00]).BranchIds
        = [(4, 0), (5, 2)]
    ∧ (GetBranchMapFromBytecode [0x60, 0x01, 0x60, 0x02, 0x57, 0x57, 0x61, 0x00]).Size
        = 2 * 2 := by
  refine ⟨(C9_branch_map_build []).2.2.2.2.2 1 0x61 [0x00] 3 7 (by decide) (by decide),
          by decide, ?_⟩
  have h := (C9_branch_map_build [0x60, 0x01, 0x60, 0x02, 0x57, 0x57, 0x61, 0x00]).2.2.1
  rw [h]
  decide

/-! ## Association-list lemmas -/

/-- Helper: replacing the matching entry is seen by `find?`. -/
lemma find?_map_set [BEq κ] [LawfulBEq κ] (l : List (κ × α)) (k : κ) (v : α)
    (h : (l.find? (fun p => p.1 == k)).isSome = true) :
    ((l.map (fun p => if p.1 == k then (k, v) else p)).find? (fun p => p.1 == k))
      = some (k, v) := by
  induction l with
  | nil => simp at h
  | cons p l ih =>
    rcases hp : (p.1 == k) with _ | _
    · rw [List.find?_cons_of_neg _ (by simp [hp])] at h
      simp only [List.map_cons, hp, Bool.false_eq_true, if_false]
      rw [List.find?_cons_of_neg _ (by simp [hp])]
      exact ih h
    · simp only [List.map_cons, hp, if_true]
      exact List.find?_cons_of_pos _ (by simp)

/-- Helper: an appended fresh entry is found once the rest fails. -/
lemma find?_append_self [BEq κ] [LawfulBEq κ] (l : List (κ × α)) (k : κ) (v : α)
    (h : l.find? (fun p => p.1 == k) = none) :
    (l ++ [(k, v)]).find? (fun p => p.1 == k) = some (k, v) := by
  induction l with
  | nil => simp
  | cons p l ih =>
    have hp : (p.1 == k) = false := by
      rcases hq : (p.1 == k) with _ | _
      · rfl
      · rw [List.find?_cons_of_pos _ (by simp [hq])] at h
        simp at h
    rw [List.find?_cons_of_neg _ (by simp [hp])] at h
    simp only [List.cons_append]
    rw [List.find?_cons_of_neg _ (by simp [hp])]
    exact ih h

/-- Reading back the key just written by a Go map write. -/
lemma alistFind_set_self [BEq κ] [LawfulBEq κ] (l : List (κ × α)) (k : κ) (v : α) :
    alistFind (alistSet l k v) k = some v := by
  unfold alistSet
  by_cases h : alistHas l k = true
  · rw [if_pos h]
    have h' : (l.find? (fun p => p.1 == k)).isSome = true := by
      simpa [alistHas, alistFind] using h
    simp [alistFind, find?_map_set l k v h']
  · rw [if_neg h]
    have h' : l.find? (fun p => p.1 == k) = none := by
      rcases hq : l.find? (fun p => p.1 == k) with _ | w
      · exact hq
      · exact absurd (by simp [alistHas, alistFind, hq]) h
    simp [alistFind, find?_append_self l k v h']

/-- Membership after a Go map write. -/
lemma alistHas_set_self [BEq κ] [LawfulBEq κ] (l : List (κ × α)) (k : κ) (v : α) :
    alistHas (alistSet l k v) k = true := by
  simp [alistHas, alistFind_set_self]

/-! ## Claim C5: integer-overflow taint source -/

/-- Counterexample for claim C5 as stated: at `MUL` with operands `a = 0`
(top of stack) and `b = 1`, the claim's condition — *either* operand
non-zero and the wrapped product below an operand — holds, yet the source's
`isOverflowTaintSource` returns false (it requires both operands to be
non-zero). -/
theorem C5_overflow_source_counterexample :
    isOverflowTaintSource opMUL 0 1 = false
    ∧ claimOverflowSourceCond opMUL 0 1 = true := by
  constructor
  · decide
  · decide

/-- Claim C5 amended: the overflow source condition holds exactly as the
claim words it for `ADD` and `SUB`, and for `MUL` with *both* operands
non-zero (not *either*); whenever the source condition holds outside the
helper contract, `detect_overflow` tags the string label `"OVERFLOW"` onto
the taint analyzer's top-of-stack slot (which the subsequent
`PropagateTaint` merges onto the operation's result slot). -/
theorem C5_overflow_source_amended :
    (∀ opcode a b, isOverflowTaintSource opcode a b = amendedOverflowSourceCond opcode a b)
    ∧ (∀ helperContract toAddr codeAddress pc opcode a b ta pts,
        helperContract ≠ toAddr →
        isOverflowTaintSource opcode a b = true →
        detect_overflow helperContract toAddr codeAddress pc opcode a b ta pts
          = (ta.AddTaintSourceByString OVERFLOW_ID, pts)
        ∧ (ta.AddTaintSourceByString OVERFLOW_ID).IsTaintedByString OVERFLOW_ID 0 = true) := by
  constructor
  · intro opcode a b
    unfold isOverflowTaintSource amendedOverflowSourceCond
    by_cases h1 : opcode = opADD
    · simp [h1]
    · by_cases h2 : opcode = opSUB
      · simp [h1, h2]
      · by_cases h3 : opcode = opMUL
        · simp only [h1, h2, h3, if_true, if_false]
          by_cases ha : a = 0
          · simp [ha]
          · by_cases hb : b = 0
            · simp [ha, hb]
            · simp [ha, hb]
        · simp [h1, h2, h3]
  · intro helperContract toAddr codeAddress pc opcode a b ta pts hne hsrc
    constructor
    · unfold detect_overflow
      rw [if_neg (by simpa using hne), if_pos hsrc]
    · unfold TaintAnalyzer.AddTaintSourceByString TaintAnalyzer.IsTaintedByString
      simp only [alistFind_set_self]
      simp [alistHas_set_self]

/-- Witness for the amended claim C5: the theorem applied at the
counterexample-adjacent input `MUL 2 (2^255)` (both operands non-zero,
wrapped product below an operand) with a concrete analyzer. -/
theorem C5_overflow_source_amended_witness :
    isOverflowTaintSource opMUL 2 (2 ^ 255) = amendedOverflowSourceCond opMUL 2 (2 ^ 255)
    ∧ detect_overflow 1 2 9 17 opMUL 2 (2 ^ 255) NewTaintAnalyzer []
        = (NewTaintAnalyzer.AddTaintSourceByString OVERFLOW_ID, [])
    ∧ (NewTaintAnalyzer.AddTaintSourceByString OVERFLOW_ID).IsTaintedByString OVERFLOW_ID 0
        = true := by
  refine ⟨C5_overflow_source_amended.1 opMUL 2 (2 ^ 255), ?_, ?_⟩
  · exact (C5_overflow_source_amended.2 1 2 9 17 opMUL 2 (2 ^ 255) NewTaintAnalyzer []
      (by decide) (by decide)).1
  · exact (C5_overflow_source_amended.2 1 2 9 17 opMUL 2 (2 ^ 255) NewTaintAnalyzer []
      (by decide) (by decide)).2

/-! ## Claim C6: token-flow set identity -/

/-- Counterexample for claim C6 as stated: two flows recorded at the same
program position `(code 9, runtime, pc 3)` that differ in their `from`
address (1 versus 2) are not distinct members — `Tokenflow.String()` renders
only the position, so the second `SetTokenFlow` finds the key present,
reports no change and leaves the one-element set unchanged, with the first
flow's fields stored. -/
theorem C6_tokenflow_key_counterexample :
    (((NewTokenflowSet.SetTokenFlow 5 9 false 3 100 1 2 7).1).SetTokenFlow 5 9 false 3 100 2 2 7)
        = ((NewTokenflowSet.SetTokenFlow 5 9 false 3 100 1 2 7).1, false)
    ∧ ((NewTokenflowSet.SetTokenFlow 5 9 false 3 100 1 2 7).1).successSet.length = 1
    ∧ (1 : Address) ≠ (2 : Address) := by
  refine ⟨by decide, by decide, by decide⟩

/-- Claim C6 amended: a token-flow set element is identified by its program
position alone — `Tokenflow.String()` renders only `position`, so flows at
one position are conflated whatever their `from`, `to`, `token` or amount;
adding a flow whose position key is present leaves the set unchanged and
reports false, and a fresh position key appends the flow and reports
true. -/
theorem C6_tokenflow_key_amended :
    (∀ tf₁ tf₂ : Tokenflow, tf₁.Position = tf₂.Position → tf₁.toStr = tf₂.toStr)
    ∧ (∀ (ds : TokenflowSet) (storageAddress codeAddress : Address) (create : Bool)
          (pc amount : Nat) (fromA toA token : Address),
        (alistHas ds.successSet (ProgramPosition.toStr ⟨codeAddress, create, pc⟩) = true →
          ds.SetTokenFlow storageAddress codeAddress create pc amount fromA toA token
            = (ds, false))
        ∧ (alistHas ds.successSet (ProgramPosition.toStr ⟨codeAddress, create, pc⟩) = false →
          (ds.SetTokenFlow storageAddress codeAddress create pc amount fromA toA token).1.successSet
            = ds.successSet
              ++ [(ProgramPosition.toStr ⟨codeAddress, create, pc⟩,
                   ⟨⟨codeAddress, create, pc⟩, ⟨fromA, toA, amount % U256, token⟩⟩)]
          ∧ (ds.SetTokenFlow storageAddress codeAddress create pc amount fromA toA token).2
            = true)) := by
  constructor
  · intro tf₁ tf₂ hp
    unfold Tokenflow.toStr
    rw [hp]
  · intro ds storageAddress codeAddress create pc amount fromA toA token
    constructor
    · intro h
      unfold TokenflowSet.SetTokenFlow
      simp only [Tokenflow.toStr]
      rw [if_pos h]
    · intro h
      unfold TokenflowSet.SetTokenFlow
      simp only [Tokenflow.toStr]
      rw [if_neg (by simp [h])]
      exact ⟨rfl, rfl⟩

/-- Witness for the amended claim C6: the theorem applied at a concrete set
holding one flow at position `(9, runtime, 3)`: re-adding at that position
is a no-op, and adding at the fresh position `(9, runtime, 4)` appends. -/
theorem C6_tokenflow_key_amended_witness :
    ((NewTokenflowSet.SetTokenFlow 5 9 false 3 100 1 2 7).1).SetTokenFlow 5 9 false 3 50 4 6 8
        = ((NewTokenflowSet.SetTokenFlow 5 9 false 3 100 1 2 7).1, false)
    ∧ (((NewTokenflowSet.SetTokenFlow 5 9 false 3 100 1 2 7).1).SetTokenFlow 5 9 false 4 50 4 6 8).2
        = true := by
  constructor
  · exact (C6_tokenflow_key_amended.2
      (NewTokenflowSet.SetTokenFlow 5 9 false 3 100 1 2 7).1 5 9 false 3 50 4 6 8).1
      (by decide)
  · exact ((C6_tokenflow_key_amended.2
      (NewTokenflowSet.SetTokenFlow 5 9 false 3 100 1 2 7).1 5 9 false 4 50 4 6 8).2
      (by decide)).2

/-! ## Claim C7: bug map update -/

/-- Counterexample for claim C7 as stated: with `A` holding bug `"BUG"` first
seen at time 5 and `B` holding the same bug first seen at time 3,
`A.Update(B)` keeps A's own timestamp 5 — not the earliest of the two
first-seen timestamps, which is 3. -/
theorem C7_bugmap_update_counterexample :
    bugMapUpdate (fun id => if id = "BUG" then some 5 else none)
        (fun id => if id = "BUG" then some 3 else none) "BUG" = some 5
    ∧ min 5 3 = 3
    ∧ bugMapUpdate (fun id => if id = "BUG" then some 5 else none)
        (fun id => if id = "BUG" then some 3 else none) "BUG" ≠ some (min 5 3) := by
  refine ⟨by decide, by decide, by decide⟩

/-- Claim C7 amended: `A.Update(B)` makes A's key set the union of the two
key sets, and for every id already present in A — in particular one present
in both — A keeps the timestamp it already stores; B's timestamp is taken
only for ids new to A. -/
theorem C7_bugmap_update_amended :
    ∀ (A B : BugMapData) (id : String),
      ((bugMapUpdate A B id).isSome = ((A id).isSome || (B id).isSome))
      ∧ (∀ t, A id = some t → bugMapUpdate A B id = some t)
      ∧ (A id = none → bugMapUpdate A B id = B id) := by
  intro A B id
  refine ⟨?_, ?_, ?_⟩
  · unfold bugMapUpdate
    rcases h : A id with _ | t
    · simp
    · simp
  · intro t h
    unfold bugMapUpdate
    rw [h]
  · intro h
    unfold bugMapUpdate
    rw [h]

/-- Witness for the amended claim C7: the theorem applied at the concrete
maps of the counterexample — the union holds and A's timestamp 5 is kept. -/
theorem C7_bugmap_update_amended_witness :
    bugMapUpdate (fun id => if id = "BUG" then some 5 else none)
        (fun id => if id = "BUG" then some 3 else none) "BUG" = some 5
    ∧ bugMapUpdate (fun id => if id = "BUG" then some 5 else none)
        (fun id => if id = "BUG" then some 3 else none) "OTHER"
        = (fun id => if id = "BUG" then some 3 else none) "OTHER" := by
  constructor
  · exact (C7_bugmap_update_amended (fun id => if id = "BUG" then some 5 else none)
      (fun id => if id = "BUG" then some 3 else none) "BUG").2.1 5 (by decide)
  · exact (C7_bugmap_update_amended (fun id => if id = "BUG" then some 5 else none)
      (fun id => if id = "BUG" then some 3 else none) "OTHER").2.2 (by decide)

/-! ## Claim C8: comparison-distance maps keep the minimum -/

/-- Folding further observations over a map that already stores `v` at `id`
leaves the running minimum. -/
lemma setDistanceAt_foldl_min (id : Nat) :
    ∀ (ds : List Nat) (m : DistanceData) (v : Nat), m id = some v →
      (ds.foldl (fun acc x => (setDistanceAt acc id x).1) m) id = some (ds.foldl min v) := by
  intro ds
  induction ds with
  | nil => intro m v h; simpa using h
  | cons x ds ih =>
    intro m v h
    simp only [List.foldl_cons]
    apply ih
    unfold setDistanceAt
    rw [h]
    by_cases hx : x < v
    · simp [hx, min_eq_right (le_of_lt hx)]
    · simp [hx, h, min_eq_left (le_of_not_lt hx)]

/-- Claim C8: `setDistanceAt` stores the value when the id is absent and
replaces the stored value only when the new one is strictly smaller, so the
stored value is the minimum of the old and new; `update` merges pointwise
with the per-id minimum (keeping the stored value on absence); the stored
distance at a fixed id never increases under either operation; and over any
observation sequence at one id the stored value is the minimum of all
observations. -/
theorem C8_min_distance_maps :
    (∀ (m : DistanceData) (id d : Nat), m id = none →
        (setDistanceAt m id d).1 id = some d ∧ (setDistanceAt m id d).2 = true)
    ∧ (∀ (m : DistanceData) (id d v : Nat), m id = some v →
        (setDistanceAt m id d).1 id = some (min v d)
        ∧ (setDistanceAt m id d).2 = decide (d < v))
    ∧ (∀ (A B : DistanceData) (id : Nat),
        updateDistanceData A B id
          = match A id, B id with
            | none, x => x
            | some v, none => some v
            | some v, some d => some (min v d))
    ∧ (∀ (m : DistanceData) (id d j v : Nat), m j = some v →
        ∃ w, (setDistanceAt m id d).1 j = some w ∧ w ≤ v)
    ∧ (∀ (A B : DistanceData) (j v : Nat), A j = some v →
        ∃ w, updateDistanceData A B j = some w ∧ w ≤ v)
    ∧ (∀ (m : DistanceData) (id d : Nat) (ds : List Nat), m id = none →
        (List.foldl (fun acc x => (setDistanceAt acc id x).1) m (d :: ds)) id
          = some (ds.foldl min d)) := by
  refine ⟨?_, ?_, ?_, ?_, ?_, ?_⟩
  · intro m id d h
    unfold setDistanceAt
    rw [h]
    exact ⟨by simp, rfl⟩
  · intro m id d v h
    unfold setDistanceAt
    rw [h]
    by_cases hd : d < v
    · simp [hd, min_eq_right (le_of_lt hd)]
    · simp [hd, h, min_eq_left (le_of_not_lt hd)]
  · intro A B id
    unfold updateDistanceData
    rcases A id with _ | v <;> rcases B id with _ | d <;> simp [min_def] <;>
      split_ifs <;> first | rfl | (exfalso; omega)
  · intro m id d j v h
    unfold setDistanceAt
    rcases hm : m id with _ | u
    · by_cases hj : j = id
      · subst hj
        rw [hm] at h
        cases h
      · exact ⟨v, by simp [hj, h], le_refl v⟩
    · by_cases hd : d < u
      · by_cases hj : j = id
        · subst hj
          rw [hm] at h
          injection h with hv
          exact ⟨d, by simp [hd], by omega⟩
        · exact ⟨v, by simp [hd, hj, h], le_refl v⟩
      · exact ⟨v, by simp [hd, h], le_refl v⟩
  · intro A B j v h
    unfold updateDistanceData
    rw [h]
    rcases hb : B j with _ | d
    · exact ⟨v, rfl, le_refl v⟩
    · by_cases hd : d < v
      · exact ⟨d, by simp [hd], le_of_lt hd⟩
      · exact ⟨v, by simp [hd], le_refl v⟩
  · intro m id d ds h
    simp only [List.foldl_cons]
    apply setDistanceAt_foldl_min
    unfold setDistanceAt
    rw [h]
    simp

/-- Witness for claim C8: the theorem applied at an initially empty map with
id 4 and the observation sequence `7, 3, 9`: the stored value is 3, and
merging two one-entry maps keeps the minimum. -/
theorem C8_min_distance_maps_witness :
    (List.foldl (fun acc x => (setDistanceAt acc 4 x).1) (fun _ => none) [7, 3, 9]) 4
      = some ([3, 9].foldl min 7)
    ∧ updateDistanceData (fun j => if j = 4 then some 7 else none)
        (fun j => if j = 4 then some 3 else none) 4
      = some (min 7 3) := by
  constructor
  · exact C8_min_distance_maps.2.2.2.2.2 (fun _ => none) 4 7 [3, 9] rfl
  · rw [C8_min_distance_maps.2.2.1 (fun j => if j = 4 then some 7 else none)
      (fun j => if j = 4 then some 3 else none) 4]
    decide

/-! ## Claim C1: dataflow tracer on sub-frame revert -/

/-- Claim C1 evaluated at the failing input: the top-level frame records one
write-read pair (storage address 0, slot 0, write at pc 1, read at pc 2)
into the transaction-global dataflow set; then a non-top-level frame
(depth 1) exits reverted.  The source's `OnExit` calls `RevertAll` on the
transaction-global set for every reverted exit — directly below the comment
saying nothing is reset there — so the pair recorded before and outside the
reverted frame is wiped, and in general any reverted exit at any depth
clears the whole set. -/
theorem C1_dataflow_subframe_revert_clears :
    (((NewDataflowSet.SetWrite 0 0 0 false 1).1.SetRead 0 0 0 false 2).1).set.length = 1
    ∧ (DataflowTracer.OnExit
        ⟨((NewDataflowSet.SetWrite 0 0 0 false 1).1.SetRead 0 0 0 false 2).1,
         [⟨true, false, 0⟩, ⟨true, false, 0⟩], 1⟩ 1 true).dataflowSet
      = ⟨[], []⟩
    ∧ (∀ (t : DataflowTracerState) (depth : Nat),
        (DataflowTracer.OnExit t depth true).dataflowSet = DataflowSet.RevertAll t.dataflowSet) := by
  refine ⟨by decide, by decide, ?_⟩
  intro t depth
  unfold DataflowTracer.OnExit
  by_cases h : depth = 0
  · simp [h]
  · simp [h]

/-! ## Claim C4: ether-leaking proposal condition -/

/-- The adversarial-balance loop: an adversarial `from` aborts with no sum;
otherwise the whole balance sum is accumulated. -/
lemma etherleakingLoop_eq (fromAddr : Address) (bal : Address → Nat) :
    ∀ (advs : List Address) (acc : Nat),
      etherleakingLoop advs fromAddr bal acc
        = if fromAddr ∈ advs then none else some (acc + (advs.map bal).sum) := by
  intro advs
  induction advs with
  | nil => intro acc; simp [etherleakingLoop]
  | cons a rest ih =>
    intro acc
    simp only [etherleakingLoop]
    by_cases h : fromAddr = a
    · simp [h]
    · rw [if_neg h, ih]
      by_cases hm : fromAddr ∈ rest
      · simp [hm, List.mem_cons, h]
      · simp [hm, List.mem_cons, h, Nat.add_assoc]

/-- Claim C4: on a non-reverted frame exit, `detect_etherleaking` either
leaves the proposal set unchanged or appends the single id
`ETHERLEAKING-<from>`; and that id ends up proposed exactly when it was
already proposed or the frame's `from` is not one of the configured
adversarial addresses and the sum of all adversarial balances exceeds the
original snapshot. -/
theorem C4_etherleaking_condition (advs : List Address) (fromAddr : Address)
    (bal : Address → Nat) (originalEther : Nat) (pts : List String) :
    (detect_etherleaking advs fromAddr bal originalEther pts = pts
      ∨ detect_etherleaking advs fromAddr bal originalEther pts
          = pts ++ ["ETHERLEAKING-" ++ addressHex fromAddr])
    ∧ (("ETHERLEAKING-" ++ addressHex fromAddr)
          ∈ detect_etherleaking advs fromAddr bal originalEther pts
        ↔ ("ETHERLEAKING-" ++ addressHex fromAddr) ∈ pts
          ∨ (fromAddr ∉ advs ∧ originalEther < (advs.map bal).sum)) := by
  unfold detect_etherleaking
  rw [etherleakingLoop_eq]
  by_cases hm : fromAddr ∈ advs
  · rw [if_pos hm]
    exact ⟨Or.inl rfl, by simp [hm]⟩
  · rw [if_neg hm]
    simp only [Nat.zero_add]
    by_cases hgt : originalEther < (advs.map bal).sum
    · rw [if_pos hgt]
      by_cases hc : pts.contains ("ETHERLEAKING-" ++ addressHex fromAddr)
      · rw [if_pos hc]
        refine ⟨Or.inl rfl, ?_⟩
        have hmem : ("ETHERLEAKING-" ++ addressHex fromAddr) ∈ pts := List.elem_iff.mp hc
        simp [hmem]
      · rw [if_neg hc]
        refine ⟨Or.inr rfl, ?_⟩
        simp [hm, hgt]
    · rw [if_neg hgt]
      refine ⟨Or.inl rfl, ?_⟩
      simp [hm, hgt]

/-! ## Claim C10: taint propagation with an empty shadow stack -/

/-- Claim C10: when the shadow stack holds no tainted slot, `PropagateTaint`
returns at once and the whole shadow state — stack, memory and storage — is
unchanged, whatever the opcode and operand stack; in particular an `MLOAD`
overlapping a tainted memory region introduces no stack taint. -/
theorem C10_propagate_taint_empty_stack (opcode : Nat) (stk : List Nat)
    (ta : TaintAnalyzer) (h : ta.taintStacks = []) :
    ta.PropagateTaint opcode stk = ta := by
  unfold TaintAnalyzer.PropagateTaint
  rw [if_pos (by rw [h]; rfl)]

/-- Witness for claim C10: the theorem applied at a concrete analyzer whose
memory region `[0, 64)` is tainted while no stack slot is, for an `MLOAD`
reading `[0, 32)` — which overlaps the tainted region — leaving the analyzer
unchanged. -/
theorem C10_propagate_taint_empty_stack_witness :
    TaintAnalyzer.PropagateTaint ⟨[], [("7-op42", ⟨0x42, 7, 0, 64⟩)], []⟩ opMLOAD [0]
      = ⟨[], [("7-op42", ⟨0x42, 7, 0, 64⟩)], []⟩
    ∧ (0 < 64 ∧ 0 < 0 + 32) := by
  exact ⟨C10_propagate_taint_empty_stack opMLOAD [0] ⟨[], [("7-op42", ⟨0x42, 7, 0, 64⟩)], []⟩ rfl,
         by decide⟩

/-! ## Claims C2 and C3: branch-distance recording and back-propagation
failure handling -/

/-- One-step unfolding of the back-propagation loop at index 0. -/
lemma backPropLoop_zero (ops : List Operation) (last : Operation) (si : Int)
    (base diff : Nat) :
    backPropLoop ops last 0 si base diff
      = if ((0 : Nat) : Int) ≤ (ops.length : Int) - 40 then ⟨diff, .NOTFOUND, false⟩
        else if opSL (ops.getD 0 ⟨0, []⟩) < (bpStepAt ops last 0 si base diff).si then
          ⟨(bpStepAt ops last 0 si base diff).diff, .STACKOUTOFSCOPE, true⟩
        else if IsFoundDistance (bpStepAt ops last 0 si base diff).bs then
          ⟨(bpStepAt ops last 0 si base diff).diff, (bpStepAt ops last 0 si base diff).bs, false⟩
        else ⟨(bpStepAt ops last 0 si base diff).diff, .NOTFOUND, false⟩ := rfl

/-- One-step unfolding of the back-propagation loop at a successor index. -/
lemma backPropLoop_succ (ops : List Operation) (last : Operation) (n : Nat) (si : Int)
    (base diff : Nat) :
    backPropLoop ops last (n + 1) si base diff
      = if (((n + 1 : Nat)) : Int) ≤ (ops.length : Int) - 40 then ⟨diff, .NOTFOUND, false⟩
        else if opSL (ops.getD (n + 1) ⟨0, []⟩) < (bpStepAt ops last (n + 1) si base diff).si then
          ⟨(bpStepAt ops last (n + 1) si base diff).diff, .STACKOUTOFSCOPE, true⟩
        else if IsFoundDistance (bpStepAt ops last (n + 1) si base diff).bs then
          ⟨(bpStepAt ops last (n + 1) si base diff).diff,
           (bpStepAt ops last (n + 1) si base diff).bs, false⟩
        else backPropLoop ops last n (bpStepAt ops last (n + 1) si base diff).si
              (bpStepAt ops last (n + 1) si base diff).base
              (bpStepAt ops last (n + 1) si base diff).diff := rfl

/-- A loop-body case that does not end the search leaves the distance
untouched: only the `FOUND` and `ENDWITHCALL` cases write `diff`. -/
lemma bpCase_diff (o nextOp last : Operation) (si : Int) (base diff : Nat) :
    IsFoundDistance (bpCase o nextOp last si base diff).bs = false →
      (bpCase o nextOp last si base diff).diff = diff := by
  unfold bpCase
  by_cases h1 : (o.opcode = opLT ∨ o.opcode = opGT ∨ o.opcode = opEQ) ∧ si = opSL o - 2
  · rw [if_pos h1]
    intro h
    simp [IsFoundDistance] at h
  · rw [if_neg h1]
    by_cases h2 : (o.opcode = opSLT ∨ o.opcode = opSGT) ∧ si = opSL o - 2
    · rw [if_pos h2]
      intro h
      simp [IsFoundDistance] at h
    · rw [if_neg h2]
      by_cases h3 : o.opcode = opAND ∧ si = opSL o - 2
      · rw [if_pos h3]
        intro h
        simp [IsFoundDistance] at h
      · rw [if_neg h3]
        by_cases h4 : o.opcode = opOR ∧ si = opSL o - 2
        · rw [if_pos h4]
          intro h
          simp [IsFoundDistance] at h
        · rw [if_neg h4]
          by_cases h5 : o.opcode = opNOT ∧ si = opSL o - 1
          · rw [if_pos h5]
            intro h
            rfl
          · rw [if_neg h5]
            by_cases h6 : (opADD ≤ o.opcode ∧ o.opcode ≤ opMULMOD) ∧ si = opSL o - 2
            · rw [if_pos h6]
              intro h
              simp [IsFoundDistance] at h
            · rw [if_neg h6]
              by_cases h7 : o.opcode = opISZERO ∧ si = opSL o - 1
              · rw [if_pos h7]
                intro h
                simp [IsFoundDistance] at h
              · rw [if_neg h7]
                by_cases h8 : o.opcode = opSELFBALANCE ∧ si = opSL o
                · rw [if_pos h8]
                  intro h
                  simp [IsFoundDistance] at h
                · rw [if_neg h8]
                  by_cases h9 : (opDUP1 ≤ o.opcode ∧ o.opcode ≤ opDUP16) ∧ si = opSL o
                  · rw [if_pos h9]
                    intro h
                    rfl
                  · rw [if_neg h9]
                    by_cases h10 : opSWAP1 ≤ o.opcode ∧ o.opcode ≤ opSWAP16
                    · rw [if_pos h10]
                      split_ifs <;> intro h <;> rfl
                    · rw [if_neg h10]
                      by_cases h11 : (opPUSH1 ≤ o.opcode ∧ o.opcode ≤ opPUSH32) ∧ si = opSL o
                      · rw [if_pos h11]
                        intro h
                        simp [IsFoundDistance] at h
                      · rw [if_neg h11]
                        by_cases h12 : o.opcode = opCALL ∧ si = opSL o - 7
                        · rw [if_pos h12]
                          intro h
                          simp [IsFoundDistance] at h
                        · rw [if_neg h12]
                          by_cases h13 : o.opcode = opSTATICCALL ∧ si = opSL o - 6
                          · rw [if_pos h13]
                            intro h
                            simp [IsFoundDistance] at h
                          · rw [if_neg h13]
                            by_cases h14 : o.opcode = opDELEGATECALL ∧ si = opSL o - 6
                            · rw [if_pos h14]
                              intro h
                              simp [IsFoundDistance] at h
                            · rw [if_neg h14]
                              by_cases h15 : o.opcode = opCALLVALUE ∧ si = opSL o
                              · rw [if_pos h15]
                                intro h
                                simp [IsFoundDistance] at h
                              · rw [if_neg h15]
                                intro h
                                rfl

/-- The same for the loop body's case at index `i`. -/
lemma bpStepAt_diff (ops : List Operation) (last : Operation) (i : Nat) (si : Int)
    (base diff : Nat) :
    IsFoundDistance (bpStepAt ops last i si base diff).bs = false →
      (bpStepAt ops last i si base diff).diff = diff :=
  bpCase_diff (ops.getD i ⟨0, []⟩) (ops.getD (i + 1) ⟨0, []⟩) last si base diff

/-- Exit analysis of the back-propagation loop: a `NOTFOUND` exit keeps the
threaded distance and carries no error, and a `STACKOUTOFSCOPE` exit always
carries an error. -/
lemma backPropLoop_exit (ops : List Operation) (last : Operation) :
    ∀ (i : Nat) (si : Int) (base diff : Nat),
      ((backPropLoop ops last i si base diff).status = .NOTFOUND →
        (backPropLoop ops last i si base diff).diff = diff
        ∧ (backPropLoop ops last i si base diff).isErr = false)
      ∧ ((backPropLoop ops last i si base diff).status = .STACKOUTOFSCOPE →
        (backPropLoop ops last i si base diff).isErr = true) := by
  intro i
  induction i with
  | zero =>
    intro si base diff
    rw [backPropLoop_zero]
    split_ifs with hg hsl hf
    · exact ⟨fun _ => ⟨rfl, rfl⟩, fun h => by simp at h⟩
    · exact ⟨fun h => by simp at h, fun _ => rfl⟩
    · refine ⟨fun h => ?_, fun h => ?_⟩
      · rw [show (⟨(bpStepAt ops last 0 si base diff).diff,
            (bpStepAt ops last 0 si base diff).bs, false⟩ : BPResult).status
            = (bpStepAt ops last 0 si base diff).bs from rfl] at h
        rw [h] at hf
        simp [IsFoundDistance] at hf
      · rw [show (⟨(bpStepAt ops last 0 si base diff).diff,
            (bpStepAt ops last 0 si base diff).bs, false⟩ : BPResult).status
            = (bpStepAt ops last 0 si base diff).bs from rfl] at h
        rw [h] at hf
        simp [IsFoundDistance] at hf
    · refine ⟨fun _ => ⟨?_, rfl⟩, fun h => by simp at h⟩
      exact bpStepAt_diff ops last 0 si base diff (by simpa using hf)
  | succ n ih =>
    intro si base diff
    rw [backPropLoop_succ]
    split_ifs with hg hsl hf
    · exact ⟨fun _ => ⟨rfl, rfl⟩, fun h => by simp at h⟩
    · exact ⟨fun h => by simp at h, fun _ => rfl⟩
    · refine ⟨fun h => ?_, fun h => ?_⟩
      · rw [show (⟨(bpStepAt ops last (n + 1) si base diff).diff,
            (bpStepAt ops last (n + 1) si base diff).bs, false⟩ : BPResult).status
            = (bpStepAt ops last (n + 1) si base diff).bs from rfl] at h
        rw [h] at hf
        simp [IsFoundDistance] at hf
      · rw [show (⟨(bpStepAt ops last (n + 1) si base diff).diff,
            (bpStepAt ops last (n + 1) si base diff).bs, false⟩ : BPResult).status
            = (bpStepAt ops last (n + 1) si base diff).bs from rfl] at h
        rw [h] at hf
        simp [IsFoundDistance] at hf
    · refine ⟨fun h => ?_, fun h => ?_⟩
      · rcases (ih (bpStepAt ops last (n + 1) si base diff).si
          (bpStepAt ops last (n + 1) si base diff).base
          (bpStepAt ops last (n + 1) si base diff).diff).1 h with ⟨hd, he⟩
        refine ⟨?_, he⟩
        rw [hd]
        exact bpStepAt_diff ops last (n + 1) si base diff (by simpa using hf)
      · exact (ih (bpStepAt ops last (n + 1) si base diff).si
          (bpStepAt ops last (n + 1) si base diff).base
          (bpStepAt ops last (n + 1) si base diff).diff).2 h

/-- Exit analysis lifted to `backPropagationToFindDistance` (the loop starts
with distance 0). -/
lemma backPropagation_exit (cached : List Operation) :
    ((backPropagationToFindDistance cached).status = .NOTFOUND →
      (backPropagationToFindDistance cached).diff = 0
      ∧ (backPropagationToFindDistance cached).isErr = false)
    ∧ ((backPropagationToFindDistance cached).status = .STACKOUTOFSCOPE →
      (backPropagationToFindDistance cached).isErr = true) := by
  unfold backPropagationToFindDistance
  by_cases hj : (cached.getD (cached.length - 1) ⟨0, []⟩).opcode ≠ opJUMPI
  · rw [if_pos hj]
    exact ⟨fun h => by simp at h, fun h => by simp at h⟩
  · rw [if_neg hj]
    exact backPropLoop_exit cached (cached.getD (cached.length - 1) ⟨0, []⟩)
      (cached.length - 1) _ _ 0

/-- Characterization of the `JUMPI` handler in terms of the condition and
the back-propagation result. -/
lemma jumpiDistances_eq (cached : List Operation) :
    jumpiDistances cached
      = if jumpiCond cached ≠ 0 then
          if 1 < jumpiCond cached then some ((jumpiCond cached + DD) % U256, 0)
          else if (backPropagationToFindDistance cached).isErr then none
          else some (((backPropagationToFindDistance cached).diff + DD) % U256, 0)
        else if (backPropagationToFindDistance cached).isErr then none
        else some (0, ((backPropagationToFindDistance cached).diff + DD) % U256) := rfl

/-- Counterexample for claim C2 as stated: at a `JUMPI` whose condition is
`2^256 - 1` (non-zero, so the jump is taken), the handler records the pair
`(distanceToCondIsZero, distanceToCondIsNotZero) = (0, 0)`: the executed
side gets 0 as claimed, but the non-executed side also gets 0 — the
addition of `K = 1` to the condition value wraps modulo `2^256` — refuting
`dist_to_not_taken ≥ 1`. -/
theorem C2_branch_distance_counterexample :
    jumpiDistances [⟨opJUMPI, [U256 - 1, 3]⟩] = some (0, 0)
    ∧ U256 - 1 ≠ 0 := by
  exact ⟨by decide, by decide⟩

/-- Claim C2 amended: the executed side records distance 0 and the other
side records `(d + K) mod 2^256`, where `d` is the back-propagated distance
(or the condition value itself when the condition exceeds one) and `K = 1`;
this is at least 1 whenever `d + K` does not wrap, i.e. except at
`d = 2^256 - 1`. -/
theorem C2_branch_distance_amended (cached : List Operation) (dz dnz : Nat)
    (h : jumpiDistances cached = some (dz, dnz)) :
    (jumpiCond cached ≠ 0 →
      dnz = 0 ∧ dz = (jumpiPreDistance cached + DD) % U256
      ∧ (jumpiPreDistance cached + DD < U256 → 1 ≤ dz))
    ∧ (jumpiCond cached = 0 →
      dz = 0 ∧ dnz = (jumpiPreDistance cached + DD) % U256
      ∧ (jumpiPreDistance cached + DD < U256 → 1 ≤ dnz)) := by
  rw [jumpiDistances_eq] at h
  unfold jumpiPreDistance
  by_cases h0 : jumpiCond cached = 0
  · rw [if_neg (by simp [h0])] at h
    rw [if_neg (by simp [h0])]
    refine ⟨fun hc => absurd h0 hc, fun _ => ?_⟩
    by_cases herr : (backPropagationToFindDistance cached).isErr
    · rw [if_pos herr] at h
      cases h
    · rw [if_neg herr] at h
      injection h with h'
      injection h' with h1 h2
      refine ⟨h1.symm, h2.symm, fun hlt => ?_⟩
      rw [← h2, Nat.mod_eq_of_lt hlt]
      simp [DD]
  · rw [if_pos h0] at h
    refine ⟨fun _ => ?_, fun hc => absurd hc h0⟩
    by_cases h1 : 1 < jumpiCond cached
    · rw [if_pos h1] at h
      rw [if_pos ⟨h0, h1⟩]
      injection h with h'
      injection h' with ha hb
      refine ⟨hb.symm, ha.symm, fun hlt => ?_⟩
      rw [← ha, Nat.mod_eq_of_lt hlt]
      simp [DD]
    · rw [if_neg h1] at h
      rw [if_neg (by simp [h1])]
      by_cases herr : (backPropagationToFindDistance cached).isErr
      · rw [if_pos herr] at h
        cases h
      · rw [if_neg herr] at h
        injection h with h'
        injection h' with ha hb
        refine ⟨hb.symm, ha.symm, fun hlt => ?_⟩
        rw [← ha, Nat.mod_eq_of_lt hlt]
        simp [DD]

/-- Witness for the amended claim C2: at the single-instruction trace
`JUMPI` with condition 1, the handler records `(1, 0)` and the amended
theorem yields the non-executed side distance `(0 + 1) mod 2^256 = 1 ≥ 1`. -/
theorem C2_branch_distance_amended_witness :
    jumpiDistances [⟨opJUMPI, [1, 3]⟩] = some (1, 0)
    ∧ (1 : Nat) ≤ 1 := by
  refine ⟨by decide, ?_⟩
  exact ((C2_branch_distance_amended [⟨opJUMPI, [1, 3]⟩] 1 0 (by decide)).1
    (by decide)).2.2 (by decide)

/-- Counterexample for claim C3 as stated: on the four-instruction trace
`PUSH1 05 · CALLER · PUSH1 07 · JUMPI` (stack snapshots `[] / [5] / [5,1] /
[5,1,7]`, condition 1), the re-anchored source index 1 falls outside the
first snapshot's empty stack, so back-propagation returns `STACKOUTOFSCOPE`
with a non-nil error — and the caller panics (`none`) instead of treating it
as `NOTFOUND` and falling back to distance `K = 1` (which would have been
`some (1, 0)`). -/
theorem C3_stackoutofscope_counterexample :
    (backPropagationToFindDistance
        [⟨0x60, []⟩, ⟨0x33, [5]⟩, ⟨0x60, [5, 1]⟩, ⟨opJUMPI, [5, 1, 7]⟩]).status
      = .STACKOUTOFSCOPE
    ∧ jumpiDistances [⟨0x60, []⟩, ⟨0x33, [5]⟩, ⟨0x60, [5, 1]⟩, ⟨opJUMPI, [5, 1, 7]⟩] = none
    ∧ jumpiDistances [⟨0x60, []⟩, ⟨0x33, [5]⟩, ⟨0x60, [5, 1]⟩, ⟨opJUMPI, [5, 1, 7]⟩]
        ≠ some (1, 0) := by
  refine ⟨by decide, by decide, by decide⟩

/-- Claim C3 amended: a `NOTFOUND` exit of the bounded back-propagation
carries no error and distance 0, so the `JUMPI` distance falls back to the
additive `K = 1`; but a `STACKOUTOFSCOPE` exit carries a non-nil error,
which the caller turns into a panic (modelled `none`) instead of treating
it like `NOTFOUND`. -/
theorem C3_backpropagation_failures (cached : List Operation) :
    ((backPropagationToFindDistance cached).status = .NOTFOUND →
      (backPropagationToFindDistance cached).diff = 0
      ∧ (backPropagationToFindDistance cached).isErr = false
      ∧ (jumpiCond cached = 1 → jumpiDistances cached = some (1, 0))
      ∧ (jumpiCond cached = 0 → jumpiDistances cached = some (0, 1)))
    ∧ ((backPropagationToFindDistance cached).status = .STACKOUTOFSCOPE →
      (backPropagationToFindDistance cached).isErr = true
      ∧ (jumpiCond cached ≤ 1 → jumpiDistances cached = none)) := by
  constructor
  · intro h
    rcases (backPropagation_exit cached).1 h with ⟨hd, he⟩
    refine ⟨hd, he, fun hc => ?_, fun hc => ?_⟩
    · rw [jumpiDistances_eq, if_pos (by simp [hc]), if_neg (by simp [hc]), if_neg (by simp [he]),
        hd]
      norm_num [DD, U256]
    · rw [jumpiDistances_eq, if_neg (by simp [hc]), if_neg (by simp [he]), hd]
      norm_num [DD, U256]
  · intro h
    have he := (backPropagation_exit cached).2 h
    refine ⟨he, fun hc => ?_⟩
    rw [jumpiDistances_eq]
    by_cases h0 : jumpiCond cached = 0
    · rw [if_neg (by simp [h0]), if_pos (by simp [he])]
    · rw [if_pos h0, if_neg (by omega), if_pos (by simp [he])]

/-- Witness for the amended claim C3: the single-instruction trace `JUMPI`
with condition 1 exhausts the buffer with `NOTFOUND`, and the theorem
yields the fall-back distance pair `(1, 0) = (0 + K, 0)`. -/
theorem C3_backpropagation_failures_witness :
    jumpiDistances [⟨opJUMPI, [1, 3]⟩] = some (1, 0) := by
  exact ((C3_backpropagation_failures [⟨opJUMPI, [1, 3]⟩]).1 (by decide)).2.2.1 (by decide)

end Medusa
